import Mathlib

/-!
Verification model of the autonomous-agent handler
(`src/agents/autonomous/handler.ts`): the retrying stream wrapper
`generateContentStreamWithRetry` and the dispatch loop of
`runAutonomousAgent`.  Text is modelled as `List Char`; the JS runtime
collaborators (completion stream, abort signal, search pipeline, router,
error prettifier) are oracle parameters collected in `Env`.
-/

/-- Text, modelled as a list of characters (JS strings). -/
abbrev Str := List Char

/-- Whitespace test used by the model of `String.prototype.trim`. -/
def isWS (c : Char) : Bool :=
  c == ' ' || c == '\t' || c == '\n' || c == '\r'

/-- Model of `s.trim()`: strip whitespace from both ends. -/
def trimJS (l : Str) : Str :=
  ((l.dropWhile isWS).reverse.dropWhile isWS).reverse

/-- First occurrence of `pat` in `s`: returns the part strictly before the
occurrence and the part strictly after it. -/
def splitFirst (pat : Str) : Str → Option (Str × Str)
  | [] => if pat.isEmpty then some ([], []) else none
  | c :: cs =>
    if pat.isPrefixOf (c :: cs) then some ([], (c :: cs).drop pat.length)
    else (splitFirst pat cs).map fun pr => (c :: pr.1, pr.2)

/-- Model of `s.includes(pat)`. -/
def containsSubstr (s pat : Str) : Bool :=
  (splitFirst pat s).isSome

/-- Capture group of the first lazy match of `opn([\s\S]*?)cls`, as produced
by `String.prototype.match` with such a regex. -/
def matchFirst (opn cls s : Str) : Option Str :=
  match splitFirst opn s with
  | none => none
  | some (_, rest) =>
    match splitFirst cls rest with
    | none => none
    | some (cap, _) => some cap

/-- All capture groups of the global lazy match `opn([\s\S]*?)cls`, as
produced by `String.prototype.matchAll`.  Fuel-driven so that it computes
by kernel reduction; the fuel `s.length` always suffices because every
round consumes at least the two delimiters. -/
def matchAllAux (opn cls : Str) : Nat → Str → List Str
  | 0, _ => []
  | fuel + 1, s =>
    match splitFirst opn s with
    | none => []
    | some (_, rest) =>
      match splitFirst cls rest with
      | none => []
      | some (cap, rest2) => cap :: matchAllAux opn cls fuel rest2

/-- All captures of `opn([\s\S]*?)cls` in `s` (the `matchAll` loop). -/
def matchAll (opn cls s : Str) : List Str :=
  matchAllAux opn cls s.length s

/-- Model of `Array.prototype.join(sep)`. -/
def joinSep (sep : Str) : List Str → Str
  | [] => []
  | [x] => x
  | x :: y :: ys => x ++ sep ++ joinSep sep (y :: ys)

/- ### The retrying stream wrapper (`generateContentStreamWithRetry`) -/

/-- Shape of the error values thrown by the provider call: an optional
numeric `status` and an optional `message` string. -/
structure GenError where
  status : Option Nat
  message : Option Str
deriving DecidableEq

/-- The quota test of `generateContentStreamWithRetry`:
`error.status === 429 || error.message.includes('429') ||
error.message.includes('quota')`. -/
def isQuotaError (e : GenError) : Bool :=
  e.status == some 429 ||
    (match e.message with
     | some m => containsSubstr m ("429".toList) || containsSubstr m ("quota".toList)
     | none => false)

/-- How a run of the retry wrapper ends: a stream is obtained, an error is
rethrown, or the trailing `throw new Error("Max retries exceeded")` fires. -/
inductive RetryOutcome (σ : Type) where
  | success : σ → RetryOutcome σ
  | thrown : GenError → RetryOutcome σ
  | maxRetriesExceeded : RetryOutcome σ
deriving DecidableEq

/-- Observable result of the retry wrapper: the backoff delays slept (ms),
the retry notices passed to `onRetry`, the number of provider calls made,
and the outcome. -/
structure RetryResult (σ : Type) where
  delays : List Nat
  notices : List Str
  attempts : Nat
  outcome : RetryOutcome σ
deriving DecidableEq

/-- The retry notice string: `(Rate limit hit. Retrying in Ns...)` with
`N = Math.round(delay / 1000)`. -/
def retryNotice (delay : Nat) : Str :=
  "(Rate limit hit. Retrying in ".toList ++ (toString ((delay + 500) / 1000)).toList ++ "s...)".toList

/-- The `for (attempt = 0; attempt <= retries; attempt++)` loop of
`generateContentStreamWithRetry`; `p a` is the result of the provider call
on attempt `a`; `fuel` counts the remaining loop iterations (initially
`retries + 1`, so the fuel-0 case is exactly the fall-through to the
trailing `throw new Error("Max retries exceeded")`). -/
def retryGo {σ : Type} (p : Nat → Except GenError σ) (retries : Nat) :
    Nat → Nat → RetryResult σ
  | _, 0 => ⟨[], [], 0, .maxRetriesExceeded⟩
  | attempt, fuel + 1 =>
    match p attempt with
    | .ok s => ⟨[], [], 1, .success s⟩
    | .error e =>
      if isQuotaError e && decide (attempt < retries) then
        let d := 2 ^ attempt * 2000 + 1000
        let r := retryGo p retries (attempt + 1) fuel
        ⟨d :: r.delays, retryNotice d :: r.notices, r.attempts + 1, r.outcome⟩
      else ⟨[], [], 1, .thrown e⟩

/-- `generateContentStreamWithRetry` with a given retry budget (the handler
always passes 3, giving at most 4 provider calls). -/
def generateContentStreamWithRetry {σ : Type} (p : Nat → Except GenError σ)
    (retries : Nat) : RetryResult σ :=
  retryGo p retries 0 (retries + 1)

/- ### Data model of the dispatch loop (`runAutonomousAgent`) -/

/-- The router's closed action set (`RouterAction`). -/
inductive RouterAction where
  | SIMPLE | SEARCH | DEEP_SEARCH | IMAGE | PROJECT | CANVAS | STUDY
deriving DecidableEq

/-- A fetched web page (`title`, `url`, `content`) as consumed by the
aggregation step. -/
structure Page where
  title : Str
  url : Str
  content : Str
deriving DecidableEq

/-- Errors that can escape the loop body to the outer `try/catch`:
an `AbortError` or any other error carrying a message. -/
inductive JsError where
  | abortError
  | other : Str → JsError
deriving DecidableEq

/-- One iteration's completion stream: the text chunks it yields
(`none` models a chunk whose `text` field is absent) and, optionally,
an error it throws after its last chunk. -/
structure IterStream where
  chunks : List (Option Str)
  thrown : Option JsError

/-- Oracle environment for one run of the dispatch loop: the original user
prompt and routed action, per-iteration completion streams, the abort
signal sampled at its successive checkpoints, `shouldUseExternalSearch`
specialised to the in-loop call, the composed search+fetch pipeline
(`none` models a thrown failure caught per query), and
`getUserFriendlyError`. -/
structure Env where
  prompt : Str
  routingAction : RouterAction
  stream : Nat → IterStream
  aborted : Nat → Bool
  shouldSearch : Str → Bool
  search : Str → Option (List Page)
  friendlyError : Str → Str

/-- `runMcpWebSearch` + `fetchContentsForResults` under the per-query
`try/catch`: a failed query contributes an empty page list. -/
def resultPages (env : Env) (q : Str) : List Page :=
  (env.search q).getD []

/-- The closing tags scanned for inside the chunk loop. -/
def closeTags : List Str :=
  ["</CANVAS_TRIGGER>".toList, "</CANVASTRIGGER>".toList, "</SEARCH>".toList,
   "</DEEP>".toList, "</IMAGE>".toList, "</PROJECT>".toList,
   "</CANVAS>".toList, "</STUDY>".toList]

/-- The break condition of the chunk loop: the accumulated iteration text
contains one of the recognised closing tags. -/
def hasAnyCloseTag (t : Str) : Bool :=
  closeTags.any fun tag => containsSubstr t tag

/-- The `for await (const chunk of generator)` loop: `k` is the index of
the next abort-signal checkpoint.  Returns the text generated this
iteration, the next checkpoint index, and whether the chunk list was
exhausted (as opposed to breaking early on abort or on a closing tag). -/
def consume (aborted : Nat → Bool) : Nat → List (Option Str) → Str → Str × Nat × Bool
  | k, [], acc => (acc, k, true)
  | k, c :: cs, acc =>
    if aborted k then (acc, k + 1, false)
    else
      match c with
      | none => consume aborted (k + 1) cs acc
      | some t =>
        let acc2 := acc ++ t
        if hasAnyCloseTag acc2 then (acc2, k + 1, false)
        else consume aborted (k + 1) cs acc2

/-- `generatedThisLoop.matchAll(/<SEARCH>([\s\S]*?)<\/SEARCH>/g)` captures. -/
def searchCaps (g : Str) : List Str :=
  matchAll ("<SEARCH>".toList) ("</SEARCH>".toList) g

/-- `<DEEP>` first-match capture. -/
def deepCap (g : Str) : Option Str :=
  matchFirst ("<DEEP>".toList) ("</DEEP>".toList) g

/-- `<IMAGE>` first-match capture. -/
def imageCap (g : Str) : Option Str :=
  matchFirst ("<IMAGE>".toList) ("</IMAGE>".toList) g

/-- `<PROJECT>` first-match capture. -/
def projectCap (g : Str) : Option Str :=
  matchFirst ("<PROJECT>".toList) ("</PROJECT>".toList) g

/-- The CANVAS-family capture: `<CANVAS_TRIGGER>…</CANVAS_TRIGGER>`, then
the mismatched-closing variant, then plain `<CANVAS>…</CANVAS>` (the `||`
chain of the source). -/
def canvasCap (g : Str) : Option Str :=
  ((matchFirst ("<CANVAS_TRIGGER>".toList) ("</CANVAS_TRIGGER>".toList) g).orElse fun _ =>
    matchFirst ("<CANVAS_TRIGGER>".toList) ("</CANVASTRIGGER>".toList) g).orElse fun _ =>
    matchFirst ("<CANVAS>".toList) ("</CANVAS>".toList) g

/-- `<STUDY>` first-match capture. -/
def studyCap (g : Str) : Option Str :=
  matchFirst ("<STUDY>".toList) ("</STUDY>".toList) g

/-- One numbered line `[i] title (url):\ncontent` of the aggregated search
context. -/
def entryLine (i : Nat) (p : Page) : Str :=
  "[".toList ++ (toString i).toList ++ "] ".toList ++ p.title ++ " (".toList ++
    p.url ++ "):\n".toList ++ p.content

/-- The numbered result lines for one query, starting at index `i`
(the `pages.map((p, i) => …)` of the source, displayed as `i + 1`). -/
def entryLines (i : Nat) : List Page → List Str
  | [] => []
  | p :: ps => entryLine i p :: entryLines (i + 1) ps

/-- The `=== WEB RESULTS FOR QUERY … ===` block appended for one
successful query. -/
def aggEntry (q : Str) (pages : List Page) : Str :=
  "\n\n=== WEB RESULTS FOR QUERY: \"".toList ++ q ++ "\" ===\n".toList ++
    joinSep ("\n\n".toList) (entryLines 1 pages)

/-- `aggregatedContext`: concatenation of the blocks of all valid
(non-empty) query results, in order. -/
def aggregateContext : List (Str × List Page) → Str
  | [] => []
  | r :: rs => aggEntry r.1 r.2 ++ aggregateContext rs

/-- The synthesis follow-up prompt built after a successful multi-search. -/
def synthesisPrompt (orig : Str) (queries : List Str) (ctx : Str) : Str :=
  "USER ORIGINALLY ASKED: ".toList ++ orig ++
    "\n\nI have performed the following searches based on my previous thought process:\n".toList ++
    joinSep ("\n".toList) (queries.map fun q => "- ".toList ++ q) ++
    "\n\nSEARCH CONTEXT:\n".toList ++ ctx ++
    "\n\nINSTRUCTIONS: Synthesize a comprehensive answer to the user\x27s original query using this search data. Cite sources using [1], [2] format. Do NOT repeat the <SEARCH> tags.".toList

/-- Result of the post-stream tag handling: either re-enter the loop with
a new action, prompt and fallback context (`continue`), or fall through to
finalization (`return`). -/
inductive StepOut where
  | next : RouterAction → Str → Str → StepOut
  | finalize
deriving DecidableEq

/-- The multi-search block: if any `<SEARCH>` tags were captured and the
external pipeline applies to the first query, run every query (failures
degrade to empty results), and if at least one query produced pages,
aggregate them and re-enter the loop with the default action and the
synthesis prompt. -/
def multiSearchStep (env : Env) (origPrompt g : Str) : Option StepOut :=
  let caps := searchCaps g
  if caps.isEmpty then none
  else
    let queries := caps.map trimJS
    if env.shouldSearch (queries.headD []) then
      let results := queries.map fun q => (q, resultPages env q)
      let valid := results.filter fun r => !r.2.isEmpty
      if !valid.isEmpty then
        let ctx := aggregateContext valid
        some (.next .SIMPLE (synthesisPrompt origPrompt queries ctx) ctx)
      else none
    else none

/-- The post-stream tag handling of one iteration, exactly as sequenced in
the source: the multi-search block, then `<DEEP>`, then the single
`<SEARCH>` (guarded by `!fallbackSearchContext`), then `<IMAGE>`,
`<PROJECT>`, the CANVAS family, `<STUDY>`; no match falls through to
finalization. -/
def iterTransition (env : Env) (origPrompt g fallback : Str) : StepOut :=
  match multiSearchStep env origPrompt g with
  | some s => s
  | none =>
    match deepCap g with
    | some c => .next .DEEP_SEARCH c fallback
    | none =>
      if (searchCaps g).length == 1 && fallback.isEmpty then
        .next .SEARCH ((searchCaps g).headD []) fallback
      else
        match imageCap g with
        | some c => .next .IMAGE c fallback
        | none =>
          match projectCap g with
          | some c => .next .PROJECT c fallback
          | none =>
            match canvasCap g with
            | some c => .next .CANVAS c fallback
            | none =>
              match studyCap g with
              | some c => .next .STUDY c fallback
              | none => .finalize

/-- Some recognised control tag was captured in the iteration text. -/
def detectedTag (g : Str) : Bool :=
  !(searchCaps g).isEmpty || (deepCap g).isSome || (imageCap g).isSome ||
    (projectCap g).isSome || (canvasCap g).isSome || (studyCap g).isSome

/-- The mutable loop state at the top of a `while` iteration. -/
structure LoopState where
  action : RouterAction
  prompt : Str
  finalText : Str
  fallback : Str
  loopCount : Nat
  checkIdx : Nat

/-- Record of one executed iteration: the action it ran under, the prompt
it was given, the text it generated, and the fallback context it started
with. -/
structure IterRec where
  action : RouterAction
  promptUsed : Str
  gen : Str
  fallback : Str
deriving DecidableEq

/-- How the run ended: loop bound exhausted, abort observed at the top of
an iteration, normal finalization, or an exception reaching the outer
`catch`. -/
inductive ExitKind where
  | bound
  | abortTop
  | finalized
  | threw : JsError → ExitKind
deriving DecidableEq

/-- Observable result of a run: the message text handed back, the
accumulated streamed text (`finalResponseText` before the empty-response
fallback override), the exit kind, the final `loopCount`, and the
per-iteration trace. -/
structure RunResult where
  text : Str
  accum : Str
  exit : ExitKind
  iters : Nat
  trace : List IterRec
deriving DecidableEq

/-- `MAX_LOOPS` of the source. -/
def MAX_LOOPS : Nat := 6

/-- The `while (loopCount < MAX_LOOPS)` dispatch loop.  `fuel` is the
number of iterations the `while` condition still admits
(`MAX_LOOPS - loopCount`, kept in lockstep because `loopCount` increments
exactly once per iteration), so `fuel = 0` is exactly the condition
turning false.  Each iteration checks the abort signal, streams one
completion (`consume`), lets a trailing stream error propagate, and
otherwise applies the post-stream tag handling. -/
def loopGo (env : Env) : Nat → LoopState → RunResult
  | 0, s => ⟨s.finalText, s.finalText, .bound, s.loopCount, []⟩
  | fuel + 1, s =>
    if env.aborted s.checkIdx then
      ⟨s.finalText, s.finalText, .abortTop, s.loopCount, []⟩
    else
      match consume env.aborted (s.checkIdx + 1) (env.stream s.loopCount).chunks [] with
      | (gen, k1, exhausted) =>
        let final1 := s.finalText ++ gen
        let itRec : IterRec := ⟨s.action, s.prompt, gen, s.fallback⟩
        match (if exhausted then (env.stream s.loopCount).thrown else none) with
        | some e => ⟨final1, final1, .threw e, s.loopCount + 1, [itRec]⟩
        | none =>
          match iterTransition env env.prompt gen s.fallback with
          | .next a p fb =>
            let r := loopGo env fuel ⟨a, p, final1, fb, s.loopCount + 1, k1⟩
            ⟨r.text, r.accum, r.exit, r.iters, itRec :: r.trace⟩
          | .finalize =>
            ⟨if trimJS final1 == [] && !(s.fallback == []) then s.fallback else final1,
             final1, .finalized, s.loopCount + 1, [itRec]⟩

/-- Initial loop state: router's classification, the user prompt, empty
accumulators, `loopCount = 0`. -/
def initState (env : Env) : LoopState :=
  ⟨env.routingAction, env.prompt, [], [], 0, 0⟩

/-- The dispatch loop wrapped in the outer `try/catch`: an `AbortError`
yields the accumulated text (or the stopped-by-user placeholder when
nothing was accumulated); any other error yields a user-facing error
message; every path returns a normal message. -/
def runAutonomousModel (env : Env) : RunResult :=
  let r := loopGo env MAX_LOOPS (initState env)
  match r.exit with
  | .threw .abortError =>
    ⟨if r.accum == [] then "(Generation stopped by user)".toList else r.accum,
     r.accum, r.exit, r.iters, r.trace⟩
  | .threw (.other m) =>
    ⟨"An error occurred: ".toList ++
       (if containsSubstr m ("OpenRouter".toList) then m else env.friendlyError m),
     r.accum, r.exit, r.iters, r.trace⟩
  | _ => r

/- ### Pre-loop model selection (`runAutonomousAgent`, lines 146-176) -/

/-- The default model id. -/
def defaultModel : Str := "gemini-2.5-flash".toList

/-- `isGoogleModel`: empty is treated as native; otherwise a `gemini`/`veo`
prefix or a `google` substring. -/
def isGoogleModel (m : Str) : Bool :=
  if m.isEmpty then true
  else "gemini".toList.isPrefixOf m || "veo".toList.isPrefixOf m ||
    containsSubstr m ("google".toList)

/-- The empty-model normalisation (`!model || model.trim() === ''`). -/
def normalizeModel (m : Str) : Str :=
  if m.isEmpty || (trimJS m).isEmpty then defaultModel else m

/-- The `thinkingMode` input values relevant past the instant-mode
short-circuit. -/
inductive ThinkingMode where
  | normal | think | deep
deriving DecidableEq

/-- The thinking-mode model override and budget, including the
compatibility switch back to the default model with its notice. -/
def applyThinkingMode (m : Str) (mode : ThinkingMode) (preferredDeep : Option Str) :
    Str × Nat × List Str :=
  let m1 := match mode with
    | .deep => preferredDeep.getD ("gemini-3-pro-preview".toList)
    | .think => defaultModel
    | .normal => m
  let budget : Nat := match mode with
    | .deep => 8192
    | .think => 2048
    | .normal => 0
  if decide (0 < budget) && !containsSubstr m1 ("gemini-2.5".toList) &&
      !containsSubstr m1 ("gemini-3".toList) then
    (defaultModel, budget,
     ["\n*(Switched to Gemini 2.5 Flash for Thinking mode compatibility)*\n".toList])
  else (m1, budget, [])

/-- The one-line OpenRouter fallback notice. -/
def orFallbackNotice : Str :=
  "\n*(OpenRouter key missing, falling back to Gemini...)*\n".toList

/-- The credential fallback (`!isNative && !openRouterKey`): replace the
model with the default and emit the notice; otherwise leave both alone.
Returns the effective model and the notices emitted. -/
def applyProviderFallback (m : Str) (openRouterKey : Bool) : Str × List Str :=
  if !isGoogleModel m && !openRouterKey then (defaultModel, [orFallbackNotice])
  else (m, [])

/- ### Spec-side precedence models (for the refinement claims) -/

/-- Action selected by a step outcome, if any. -/
def stepAction : StepOut → Option RouterAction
  | .next a _ _ => some a
  | .finalize => none

/-- Rule (a) of the claimed precedence: the multi-search batch. -/
def ruleMulti (env : Env) (o g _f : Str) : Option StepOut :=
  multiSearchStep env o g

/-- Rule (b): `<DEEP>`. -/
def ruleDeep (_env : Env) (_o g f : Str) : Option StepOut :=
  (deepCap g).map fun c => .next .DEEP_SEARCH c f

/-- Rule (c), amended: a single `<SEARCH>` capture, and no fallback context
set by any earlier multi-search synthesis. -/
def ruleSingleSearch (_env : Env) (_o g f : Str) : Option StepOut :=
  if (searchCaps g).length == 1 && f.isEmpty then
    some (.next .SEARCH ((searchCaps g).headD []) f)
  else none

/-- Rule (c) exactly as the claim states it: a single `<SEARCH>` capture
(necessarily not consumed by this iteration's multi-search path, which
would already have re-entered the loop), with no condition on previously
accumulated fallback context. -/
def ruleSingleSearchClaimed (_env : Env) (_o g f : Str) : Option StepOut :=
  if (searchCaps g).length == 1 then
    some (.next .SEARCH ((searchCaps g).headD []) f)
  else none

/-- Rule (d): `<IMAGE>`. -/
def ruleImage (_env : Env) (_o g f : Str) : Option StepOut :=
  (imageCap g).map fun c => .next .IMAGE c f

/-- Rule (e): `<PROJECT>`. -/
def ruleProject (_env : Env) (_o g f : Str) : Option StepOut :=
  (projectCap g).map fun c => .next .PROJECT c f

/-- Rule (f): the CANVAS family. -/
def ruleCanvas (_env : Env) (_o g f : Str) : Option StepOut :=
  (canvasCap g).map fun c => .next .CANVAS c f

/-- Rule (g): `<STUDY>`. -/
def ruleStudy (_env : Env) (_o g f : Str) : Option StepOut :=
  (studyCap g).map fun c => .next .STUDY c f

/-- Modelled from the spec: claim C2's precedence as a declarative
first-matching-rule-wins list, with rule (c) amended to require an empty
fallback context; unmatched falls through to finalization. -/
def specTagStepAmended (env : Env) (o g f : Str) : StepOut :=
  (([ruleMulti, ruleDeep, ruleSingleSearch, ruleImage, ruleProject, ruleCanvas,
     ruleStudy].findSome? fun rule => rule env o g f).getD .finalize)

/-- Modelled from the spec: claim C2's precedence exactly as stated, with
rule (c) firing on any single `<SEARCH>` capture not consumed by this
iteration's multi-search path. -/
def specTagStepClaimed (env : Env) (o g f : Str) : StepOut :=
  (([ruleMulti, ruleDeep, ruleSingleSearchClaimed, ruleImage, ruleProject,
     ruleCanvas, ruleStudy].findSome? fun rule => rule env o g f).getD .finalize)

/-- None of the non-SEARCH tag matchers fires on `g`. -/
def otherTagFree (g : Str) : Bool :=
  (deepCap g).isNone && (imageCap g).isNone && (projectCap g).isNone &&
    (canvasCap g).isNone && (studyCap g).isNone

/-- Concatenated text of a chunk list (what the iteration accumulates when
nothing interrupts the stream). -/
def textConcat : List (Option Str) → Str
  | [] => []
  | c :: cs => c.getD [] ++ textConcat cs

/-- Trace well-formedness for claim C9: every action after the first was
installed by the tag transition computed on the previous iteration's
generated text and fallback context, and that text had a detected tag. -/
def ChainOK (env : Env) : List IterRec → Prop
  | [] => True
  | [_] => True
  | r1 :: r2 :: rest =>
    (detectedTag r1.gen = true ∧
     ∃ p fb, iterTransition env env.prompt r1.gen r1.fallback = .next r2.action p fb) ∧
    ChainOK env (r2 :: rest)

/- ### Concrete environments for counterexamples and witnesses -/

/-- A one-page search result used by the concrete environments. -/
def pageA : Page := ⟨"T".toList, "U".toList, "C".toList⟩

/-- A second one-page search result. -/
def pageB : Page := ⟨"T2".toList, "U2".toList, "C2".toList⟩

/-- Environment for claim C2's counterexample: iteration 1 produces two
searchable `<SEARCH>` tags (multi-search succeeds, setting the fallback
context), iteration 2 produces a single `<SEARCH>` tag whose query the
external pipeline declines. -/
def envC2x : Env :=
  ⟨"p".toList, .SIMPLE,
   fun i => if i == 0 then ⟨[some ("<SEARCH>a</SEARCH><SEARCH>b</SEARCH>".toList)], none⟩
            else if i == 1 then ⟨[some ("<SEARCH>c</SEARCH>".toList)], none⟩
            else ⟨[], none⟩,
   fun _ => false,
   fun q => q == "a".toList || q == "b".toList,
   fun q => if q == "a".toList || q == "b".toList then some [pageA] else none,
   fun m => m⟩

/-- Environment for claim C3's counterexample: the stream throws an
`AbortError` before yielding any chunk. -/
def envC3x : Env :=
  ⟨"p".toList, .SIMPLE, fun _ => ⟨[], some .abortError⟩, fun _ => false,
   fun _ => false, fun _ => none, fun m => m⟩

/-- Environment for claim C3's witness: a single quiet iteration that
finalizes. -/
def envC3w : Env :=
  ⟨"p".toList, .SIMPLE, fun _ => ⟨[some ("ok".toList)], none⟩, fun _ => false,
   fun _ => false, fun _ => none, fun m => m⟩

/-- Environment for claim C5's counterexample: one `<SEARCH>` tag whose
query's search pipeline fails. -/
def envC5x : Env :=
  ⟨"p".toList, .SIMPLE,
   fun i => if i == 0 then ⟨[some ("<SEARCH>q</SEARCH>".toList)], none⟩
            else if i == 1 then ⟨[some ("done".toList)], none⟩
            else ⟨[], none⟩,
   fun _ => false,
   fun _ => true,
   fun _ => none,
   fun m => m⟩

/-- Environment for claim C5's witness: the search pipeline fails on every
query. -/
def envC5w : Env :=
  ⟨"p".toList, .SIMPLE, fun _ => ⟨[], none⟩, fun _ => false,
   fun _ => true, fun _ => none, fun m => m⟩

/-- Environment for claim C6's witness: two queries both returning a page. -/
def envC6w : Env :=
  ⟨"orig".toList, .SIMPLE, fun _ => ⟨[], none⟩, fun _ => false,
   fun _ => true,
   fun q => if q == "q1".toList then some [pageA]
            else if q == "q2".toList then some [pageB] else none,
   fun m => m⟩

/-- Environment for claim C7's witness: one tag-free streamed chunk. -/
def envC7w : Env :=
  ⟨"p".toList, .SIMPLE, fun _ => ⟨[some ("hello".toList)], none⟩, fun _ => false,
   fun _ => false, fun _ => none, fun m => m⟩

/-- Environment for claim C9's counterexample: the stream throws a
non-abort error. -/
def envC9x : Env :=
  ⟨"p".toList, .SIMPLE, fun _ => ⟨[], some (.other ("boom".toList))⟩, fun _ => false,
   fun _ => false, fun _ => none, fun m => m⟩

/-- Environment for claim C9's witness: one quiet finalizing iteration. -/
def envC9w : Env :=
  ⟨"p".toList, .SIMPLE, fun _ => ⟨[some ("hi".toList)], none⟩, fun _ => false,
   fun _ => false, fun _ => none, fun m => m⟩

/-- A provider failing every attempt with a bare 429 status. -/
def quotaErr : GenError := ⟨some 429, none⟩

/-- Provider for the retry witnesses: rate-limited on every attempt. -/
def pQuota : Nat → Except GenError Nat := fun _ => .error quotaErr

/-- A non-rate-limit provider error. -/
def hardErr : GenError := ⟨some 500, some ("internal".toList)⟩

/- ### Lemmas: substring machinery -/

theorem splitFirst_eq {pat : Str} : ∀ {s pre post : Str},
    splitFirst pat s = some (pre, post) → s = pre ++ pat ++ post := by
  intro s
  induction s with
  | nil =>
    intro pre post h
    simp only [splitFirst] at h
    split at h
    · next hpat =>
      simp only [Option.some.injEq, Prod.mk.injEq] at h
      have hp : pat = [] := List.isEmpty_iff.mp hpat
      simp [← h.1, ← h.2, hp]
    · exact absurd h (by simp)
  | cons c cs ih =>
    intro pre post h
    simp only [splitFirst] at h
    split at h
    · next hp =>
      simp only [Option.some.injEq, Prod.mk.injEq] at h
      rcases List.isPrefixOf_iff_prefix.mp hp with ⟨t, ht⟩
      have hd : (c :: cs).drop pat.length = t := by
        rw [← ht]; exact List.drop_left pat t
      rw [← h.1, ← h.2, hd, List.nil_append, ht]
    · next hp =>
      rcases ho : splitFirst pat cs with _ | ⟨pre1, post1⟩
      · rw [ho] at h; exact absurd h (by simp)
      · rw [ho] at h
        simp at h
        obtain ⟨h1, h2⟩ := h
        subst h1; subst h2
        simp [ih ho]

theorem splitFirst_isSome_of_found {pat : Str} : ∀ {s : Str},
    pat <:+: s → (splitFirst pat s).isSome = true := by
  intro s
  induction s with
  | nil =>
    intro h
    have : pat = [] := by
      rcases h with ⟨s, t, hst⟩
      rcases List.append_eq_nil.mp hst with ⟨h1, h2⟩
      exact (List.append_eq_nil.mp h1).2
    simp [splitFirst, this]
  | cons c cs ih =>
    intro h
    by_cases hp : pat.isPrefixOf (c :: cs)
    · simp [splitFirst, hp]
    · have hpre : ¬ pat <+: (c :: cs) := fun hcon => hp (List.isPrefixOf_iff_prefix.mpr hcon)
      have : pat <:+: cs := by
        rcases (List.infix_cons_iff).mp h with h1 | h2
        · exact absurd h1 hpre
        · exact h2
      have := ih this
      simp only [splitFirst, if_neg hp]
      rcases ho : splitFirst pat cs with _ | pr
      · rw [ho] at this; simp at this
      · simp

theorem containsSubstr_iff_found {s pat : Str} :
    containsSubstr s pat = true ↔ pat <:+: s := by
  constructor
  · intro h
    rcases ho : splitFirst pat s with _ | ⟨pre, post⟩
    · rw [containsSubstr, ho] at h; simp at h
    · exact ⟨pre, post, (splitFirst_eq ho).symm⟩
  · intro h
    exact splitFirst_isSome_of_found h

theorem infix_app_left {x a b : Str} (h : x <:+: b) : x <:+: a ++ b :=
  h.trans (List.suffix_append a b).isInfix

theorem infix_app_right {x a b : Str} (h : x <:+: a) : x <:+: a ++ b :=
  h.trans (List.prefix_append a b).isInfix

theorem containsSubstr_app_left {a b pat : Str} (h : containsSubstr b pat = true) :
    containsSubstr (a ++ b) pat = true :=
  containsSubstr_iff_found.mpr (infix_app_left (containsSubstr_iff_found.mp h))

theorem containsSubstr_app_right {a b pat : Str} (h : containsSubstr a pat = true) :
    containsSubstr (a ++ b) pat = true :=
  containsSubstr_iff_found.mpr (infix_app_right (containsSubstr_iff_found.mp h))

theorem matchFirst_eq_none {opn cls s : Str} (h : containsSubstr s cls = false) :
    matchFirst opn cls s = none := by
  rcases h1 : splitFirst opn s with _ | ⟨pre, rest⟩
  · simp [matchFirst, h1]
  · rcases h2 : splitFirst cls rest with _ | ⟨cap, rest2⟩
    · simp [matchFirst, h1, h2]
    · exfalso
      have hrest : cls <:+: rest := ⟨cap, rest2, (splitFirst_eq h2).symm⟩
      have hs : rest <:+: s := by
        have : s = (pre ++ opn) ++ rest := by
          rw [splitFirst_eq h1, List.append_assoc]
        rw [this]
        exact (List.suffix_append (pre ++ opn) rest).isInfix
      have : containsSubstr s cls = true :=
        containsSubstr_iff_found.mpr (hrest.trans hs)
      rw [h] at this; exact absurd this (by simp)

theorem matchAllAux_eq_nil {opn cls s : Str} (h : containsSubstr s cls = false) :
    ∀ fuel, matchAllAux opn cls fuel s = [] := by
  intro fuel
  cases fuel with
  | zero => rfl
  | succ n =>
    rcases h1 : splitFirst opn s with _ | ⟨pre, rest⟩
    · simp [matchAllAux, h1]
    · rcases h2 : splitFirst cls rest with _ | ⟨cap, rest2⟩
      · simp [matchAllAux, h1, h2]
      · exfalso
        have hrest : cls <:+: rest := ⟨cap, rest2, (splitFirst_eq h2).symm⟩
        have hs : rest <:+: s := by
          have : s = (pre ++ opn) ++ rest := by
            rw [splitFirst_eq h1, List.append_assoc]
          rw [this]
          exact (List.suffix_append (pre ++ opn) rest).isInfix
        have : containsSubstr s cls = true :=
          containsSubstr_iff_found.mpr (hrest.trans hs)
        rw [h] at this; exact absurd this (by simp)

theorem matchAll_eq_nil {opn cls s : Str} (h : containsSubstr s cls = false) :
    matchAll opn cls s = [] :=
  matchAllAux_eq_nil h s.length

theorem matchAll_ne_nil_found {opn cls s : Str} (h : matchAll opn cls s ≠ []) :
    cls <:+: s := by
  by_contra hcon
  have : containsSubstr s cls = false := by
    rcases hcc : containsSubstr s cls with _ | _
    · rfl
    · exact absurd (containsSubstr_iff_found.mp hcc) hcon
  exact h (matchAll_eq_nil this)

theorem trimJS_ne_nil {l : Str} {c : Char} (hc : c ∈ l) (hw : isWS c = false) :
    trimJS l ≠ [] := by
  intro h
  have h1 : (l.dropWhile isWS).reverse.dropWhile isWS = [] := by
    rw [trimJS] at h
    exact List.reverse_eq_nil_iff.mp h
  have h2 : ∀ x ∈ l.dropWhile isWS, isWS x = true := by
    intro x hx
    exact List.dropWhile_eq_nil_iff.mp h1 x (List.mem_reverse.mpr hx)
  have h3 : c ∈ l.takeWhile isWS ++ l.dropWhile isWS := by
    rw [List.takeWhile_append_dropWhile]; exact hc
  rcases List.mem_append.mp h3 with h4 | h4
  · rw [List.mem_takeWhile_imp h4] at hw; exact absurd hw (by simp)
  · rw [h2 c h4] at hw; exact absurd hw (by simp)

theorem trimJS_ne_nil_of_searchClose {l : Str}
    (h : containsSubstr l ("</SEARCH>".toList) = true) : trimJS l ≠ [] := by
  rcases containsSubstr_iff_found.mp h with ⟨t, u, htu⟩
  have hmem : '<' ∈ l := by
    rw [← htu]
    have : '<' ∈ ("</SEARCH>".toList : Str) := by decide
    simp [List.mem_append, this]
  exact trimJS_ne_nil hmem (by decide)

theorem hasAnyCloseTag_app_left {a b : Str} (h : hasAnyCloseTag a = true) :
    hasAnyCloseTag (b ++ a) = true := by
  rcases List.any_eq_true.mp h with ⟨tag, htag, hct⟩
  exact List.any_eq_true.mpr ⟨tag, htag, containsSubstr_app_left hct⟩

theorem hasAnyCloseTag_app_right {a b : Str} (h : hasAnyCloseTag a = true) :
    hasAnyCloseTag (a ++ b) = true := by
  rcases List.any_eq_true.mp h with ⟨tag, htag, hct⟩
  exact List.any_eq_true.mpr ⟨tag, htag, containsSubstr_app_right hct⟩

theorem joinSep_elem {sep x : Str} : ∀ {l : List Str}, x ∈ l → x <:+: joinSep sep l := by
  intro l
  induction l with
  | nil => intro h; exact absurd h (by simp)
  | cons a as ih =>
    intro h
    cases as with
    | nil =>
      have : x = a := by simpa using h
      subst this
      exact List.infix_refl x
    | cons b bs =>
      rcases List.mem_cons.mp h with h1 | h2
      · subst h1
        show x <:+: x ++ sep ++ joinSep sep (b :: bs)
        exact infix_app_right (infix_app_right (List.infix_refl x))
      · have := ih h2
        show x <:+: a ++ sep ++ joinSep sep (b :: bs)
        exact infix_app_left this

theorem entryLines_mem {pg : Page} : ∀ {ps : List Page} (i : Nat), pg ∈ ps →
    ∃ j, entryLine j pg ∈ entryLines i ps := by
  intro ps
  induction ps with
  | nil => intro i h; exact absurd h (by simp)
  | cons p ps ih =>
    intro i h
    rcases List.mem_cons.mp h with h1 | h2
    · subst h1; exact ⟨i, by simp [entryLines]⟩
    · rcases ih (i + 1) h2 with ⟨j, hj⟩
      exact ⟨j, by simp [entryLines, hj]⟩

theorem content_infix_entryLine (j : Nat) (pg : Page) :
    pg.content <:+: entryLine j pg := by
  rw [entryLine]
  exact (List.suffix_append _ pg.content).isInfix

theorem content_infix_aggEntry {pg : Page} {ps : List Page} {q : Str} (h : pg ∈ ps) :
    pg.content <:+: aggEntry q ps := by
  rcases entryLines_mem 1 h with ⟨j, hj⟩
  have h1 : pg.content <:+: joinSep ("\n\n".toList) (entryLines 1 ps) :=
    (content_infix_entryLine j pg).trans (joinSep_elem hj)
  rw [aggEntry]
  exact infix_app_left h1

theorem aggEntry_infix_aggregateContext {q : Str} {ps : List Page} :
    ∀ {l : List (Str × List Page)}, (q, ps) ∈ l →
      aggEntry q ps <:+: aggregateContext l := by
  intro l
  induction l with
  | nil => intro h; exact absurd h (by simp)
  | cons r rs ih =>
    intro h
    rcases List.mem_cons.mp h with h1 | h2
    · rw [← h1]
      show aggEntry q ps <:+: aggEntry q ps ++ aggregateContext rs
      exact infix_app_right (List.infix_refl _)
    · show _ <:+: aggEntry r.1 r.2 ++ aggregateContext rs
      exact infix_app_left (ih h2)

theorem consume_no_tag {aborted : Nat → Bool} (hab : ∀ j, aborted j = false) :
    ∀ (cs : List (Option Str)) (k : Nat) (acc : Str),
      hasAnyCloseTag (acc ++ textConcat cs) = false →
      consume aborted k cs acc = (acc ++ textConcat cs, k + cs.length, true) := by
  intro cs
  induction cs with
  | nil => intro k acc h; simp [consume, textConcat]
  | cons c cs ih =>
    intro k acc h
    rw [consume.eq_def]
    simp only [hab k, Bool.false_eq_true, if_false]
    cases c with
    | none =>
      have ht : textConcat (none :: cs) = textConcat cs := by simp [textConcat]
      rw [ht] at h
      rw [ih (k + 1) acc h, ht]
      simp only [Prod.mk.injEq, List.length_cons, true_and]
      constructor
      · omega
      · trivial
    | some t =>
      have ht : acc ++ textConcat (some t :: cs) = (acc ++ t) ++ textConcat cs := by
        simp [textConcat]
      have h2 : hasAnyCloseTag ((acc ++ t) ++ textConcat cs) = false := by rw [← ht]; exact h
      have h3 : hasAnyCloseTag (acc ++ t) = false := by
        rcases hcc : hasAnyCloseTag (acc ++ t) with _ | _
        · rfl
        · rw [hasAnyCloseTag_app_right hcc] at h2
          exact absurd h2 (by simp)
      simp only [h3, Bool.false_eq_true, if_false]
      rw [ih (k + 1) (acc ++ t) h2, ht]
      simp only [Prod.mk.injEq, List.length_cons, true_and]
      constructor
      · omega
      · trivial

/- ### Lemmas: the retry wrapper -/

set_option maxRecDepth 4000 in
theorem retryGo_shape {σ : Type} (p : Nat → Except GenError σ) (R : Nat) :
    ∀ (fuel a : Nat), ∃ k,
      (retryGo p R a fuel).delays =
        (List.range k).map (fun i => 2 ^ (a + i) * 2000 + 1000) ∧
      (retryGo p R a fuel).notices = (retryGo p R a fuel).delays.map retryNotice ∧
      (retryGo p R a fuel).attempts ≤ fuel := by
  intro fuel
  induction fuel with
  | zero => intro a; exact ⟨0, by simp [retryGo]⟩
  | succ n ih =>
    intro a
    rcases hp : p a with e | s
    · rcases hq : (isQuotaError e && decide (a < R)) with _ | _
      · exact ⟨0, by simp [retryGo, hp, hq]⟩
      · rcases ih (a + 1) with ⟨k, h1, h2, h3⟩
        refine ⟨k + 1, ?_, ?_, ?_⟩
        · simp only [retryGo, hp, hq, if_true]
          rw [h1, List.range_succ_eq_map, List.map_cons, List.map_map]
          simp only [List.cons.injEq]
          refine ⟨by simp, ?_⟩
          apply List.map_congr_left
          intro i _
          have hh : a + 1 + i = a + (i + 1) := by omega
          simp [Function.comp, Nat.succ_eq_add_one, hh]
        · simp only [retryGo, hp, hq, if_true]
          rw [List.map_cons, h2]
        · simp only [retryGo, hp, hq, if_true]
          omega
    · exact ⟨0, by simp [retryGo, hp]⟩

theorem retryGo_not_max {σ : Type} (p : Nat → Except GenError σ) (R : Nat) :
    ∀ (fuel a : Nat), a + fuel = R + 1 → 0 < fuel →
      (retryGo p R a fuel).outcome ≠ .maxRetriesExceeded := by
  intro fuel
  induction fuel with
  | zero => intro a h1 h2; omega
  | succ n ih =>
    intro a h1 _
    rcases hp : p a with e | s
    · rcases hq : (isQuotaError e && decide (a < R)) with _ | _
      · simp [retryGo, hp, hq]
      · have ha : a < R := by
          have := (Bool.and_eq_true _ _).mp hq
          simpa using this.2
        have hn : 0 < n := by omega
        simp only [retryGo, hp, hq, if_true]
        exact ih (a + 1) (by omega) hn
    · simp [retryGo, hp]

theorem retryGo_all_quota {σ : Type} (p : Nat → Except GenError σ) (R : Nat)
    (e : Nat → GenError) :
    ∀ (fuel a : Nat), a + fuel = R + 1 → 0 < fuel →
      (∀ b, a ≤ b → b ≤ R → p b = .error (e b) ∧ isQuotaError (e b) = true) →
      (retryGo p R a fuel).outcome = .thrown (e R) := by
  intro fuel
  induction fuel with
  | zero => intro a h1 h2; omega
  | succ n ih =>
    intro a h1 _ hall
    have hb := hall a (Nat.le_refl a) (by omega)
    by_cases ha : a < R
    · have hq : (isQuotaError (e a) && decide (a < R)) = true := by
        simp [hb.2, ha]
      have hn : 0 < n := by omega
      simp only [retryGo, hb.1, hq, if_true]
      exact ih (a + 1) (by omega) hn (fun b hb1 hb2 => hall b (by omega) hb2)
    · have haR : a = R := by omega
      have hq : (isQuotaError (e a) && decide (a < R)) = false := by
        simp [ha]
      subst haR
      simp [retryGo, hb.1, hq]

/- ### Lemmas: the dispatch loop -/

theorem multiSearchStep_caps_ne {env : Env} {o g : Str} {s0 : StepOut}
    (h : multiSearchStep env o g = some s0) : searchCaps g ≠ [] := by
  intro hnil
  rw [multiSearchStep] at h
  simp [hnil] at h

theorem multiSearchStep_shape {env : Env} {o g : Str} {s0 : StepOut}
    (h : multiSearchStep env o g = some s0) :
    ∃ ctx, s0 = .next .SIMPLE (synthesisPrompt o ((searchCaps g).map trimJS) ctx) ctx := by
  rw [multiSearchStep] at h
  rcases he : (searchCaps g).isEmpty with _ | _
  · rw [he] at h
    simp only [Bool.false_eq_true, if_false] at h
    rcases hs : env.shouldSearch (((searchCaps g).map trimJS).headD []) with _ | _
    · rw [hs] at h; simp at h
    · rw [hs] at h
      simp only [if_true] at h
      rcases hv : (((searchCaps g).map trimJS).map fun q => (q, resultPages env q)).filter
          (fun r => !r.2.isEmpty) with _ | ⟨r0, rs⟩
      · rw [hv] at h; simp at h
      · rw [hv] at h
        simp only [List.isEmpty_cons, Bool.not_false, if_true, Option.some.injEq] at h
        exact ⟨aggregateContext (r0 :: rs), h.symm⟩
  · rw [he] at h; simp at h

theorem iterTransition_fallback {env : Env} {o g f : Str} {a : RouterAction} {p fb : Str}
    (h : iterTransition env o g f = .next a p fb) :
    fb = f ∨ containsSubstr g ("</SEARCH>".toList) = true := by
  rw [iterTransition] at h
  rcases hm : multiSearchStep env o g with _ | s0
  · rw [hm] at h
    rcases hd : deepCap g with _ | c
    · rw [hd] at h
      rcases hs : ((searchCaps g).length == 1 && f.isEmpty) with _ | _
      · rw [hs] at h
        simp only [Bool.false_eq_true, if_false] at h
        rcases hi : imageCap g with _ | c
        · rw [hi] at h
          rcases hpj : projectCap g with _ | c
          · rw [hpj] at h
            rcases hcv : canvasCap g with _ | c
            · rw [hcv] at h
              rcases hst : studyCap g with _ | c
              · rw [hst] at h; simp at h
              · rw [hst] at h
                simp only [StepOut.next.injEq] at h
                exact Or.inl h.2.2.symm
            · rw [hcv] at h
              simp only [StepOut.next.injEq] at h
              exact Or.inl h.2.2.symm
          · rw [hpj] at h
            simp only [StepOut.next.injEq] at h
            exact Or.inl h.2.2.symm
        · rw [hi] at h
          simp only [StepOut.next.injEq] at h
          exact Or.inl h.2.2.symm
      · rw [hs] at h
        simp only [if_true, StepOut.next.injEq] at h
        exact Or.inl h.2.2.symm
    · rw [hd] at h
      simp only [StepOut.next.injEq] at h
      exact Or.inl h.2.2.symm
  · rw [hm] at h
    refine Or.inr ?_
    have hne : searchCaps g ≠ [] := multiSearchStep_caps_ne hm
    exact containsSubstr_iff_found.mpr (matchAll_ne_nil_found hne)

theorem iterTransition_next_detected {env : Env} {o g f : Str} {a : RouterAction}
    {p fb : Str} (h : iterTransition env o g f = .next a p fb) :
    detectedTag g = true := by
  rw [iterTransition] at h
  rcases hm : multiSearchStep env o g with _ | s0
  · rw [hm] at h
    rcases hd : deepCap g with _ | c
    · rw [hd] at h
      rcases hs : ((searchCaps g).length == 1 && f.isEmpty) with _ | _
      · rw [hs] at h
        simp only [Bool.false_eq_true, if_false] at h
        rcases hi : imageCap g with _ | c
        · rw [hi] at h
          rcases hpj : projectCap g with _ | c
          · rw [hpj] at h
            rcases hcv : canvasCap g with _ | c
            · rw [hcv] at h
              rcases hst : studyCap g with _ | c
              · rw [hst] at h; simp at h
              · simp [detectedTag, hst]
            · simp [detectedTag, hcv]
          · simp [detectedTag, hpj]
        · simp [detectedTag, hi]
      · have h1 : (searchCaps g).length == 1 := ((Bool.and_eq_true _ _).mp hs).1
        have h2 : searchCaps g ≠ [] := by
          intro hnil
          rw [hnil] at h1
          simp at h1
        simp [detectedTag, List.isEmpty_iff, h2]
    · simp [detectedTag, hd]
  · have hne : searchCaps g ≠ [] := multiSearchStep_caps_ne hm
    simp [detectedTag, List.isEmpty_iff, hne]

theorem loopGo_iters (env : Env) : ∀ (fuel : Nat) (s : LoopState),
    (loopGo env fuel s).iters = s.loopCount + (loopGo env fuel s).trace.length ∧
    (loopGo env fuel s).trace.length ≤ fuel := by
  intro fuel
  induction fuel with
  | zero => intro s; simp [loopGo]
  | succ n ih =>
    intro s
    rcases hab : env.aborted s.checkIdx with _ | _
    · rcases hc : consume env.aborted (s.checkIdx + 1) (env.stream s.loopCount).chunks []
        with ⟨gen, k1, exh⟩
      rcases hth : (if exh then (env.stream s.loopCount).thrown else none) with _ | e
      · cases ht : iterTransition env env.prompt gen s.fallback with
        | next a p fb =>
          have hih := ih ⟨a, p, s.finalText ++ gen, fb, s.loopCount + 1, k1⟩
          simp only at hih
          simp only [loopGo, hab, Bool.false_eq_true, if_false, hc, hth, ht,
            List.length_cons]
          omega
        | finalize =>
          simp only [loopGo, hab, Bool.false_eq_true, if_false, hc, hth, ht,
            List.length_cons, List.length_nil]
          exact ⟨trivial, by omega⟩
      · simp only [loopGo, hab, Bool.false_eq_true, if_false, hc, hth,
          List.length_cons, List.length_nil]
        exact ⟨trivial, by omega⟩
    · simp only [loopGo, hab, if_true, List.length_nil]
      exact ⟨by omega, by omega⟩

theorem runAutonomousModel_fields (env : Env) :
    (runAutonomousModel env).exit = (loopGo env MAX_LOOPS (initState env)).exit ∧
    (runAutonomousModel env).accum = (loopGo env MAX_LOOPS (initState env)).accum ∧
    (runAutonomousModel env).iters = (loopGo env MAX_LOOPS (initState env)).iters ∧
    (runAutonomousModel env).trace = (loopGo env MAX_LOOPS (initState env)).trace := by
  rcases hx : (loopGo env MAX_LOOPS (initState env)).exit with _ | _ | _ | e
  · simp [runAutonomousModel, hx]
  · simp [runAutonomousModel, hx]
  · simp [runAutonomousModel, hx]
  · cases e with
    | abortError => simp [runAutonomousModel, hx]
    | other m => simp [runAutonomousModel, hx]

theorem runAutonomousModel_text_nonthrew (env : Env)
    (h : ∀ e, (runAutonomousModel env).exit ≠ .threw e) :
    (runAutonomousModel env).text = (loopGo env MAX_LOOPS (initState env)).text := by
  rcases hx : (loopGo env MAX_LOOPS (initState env)).exit with _ | _ | _ | e
  · simp [runAutonomousModel, hx]
  · simp [runAutonomousModel, hx]
  · simp [runAutonomousModel, hx]
  · exfalso
    have := (runAutonomousModel_fields env).1
    rw [hx] at this
    exact h e this

theorem loopGo_text_eq_accum (env : Env) : ∀ (fuel : Nat) (s : LoopState),
    (s.fallback ≠ [] → containsSubstr s.finalText ("</SEARCH>".toList) = true) →
    ((loopGo env fuel s).exit = .bound ∨ (loopGo env fuel s).exit = .abortTop ∨
      (loopGo env fuel s).exit = .finalized) →
    (loopGo env fuel s).text = (loopGo env fuel s).accum := by
  intro fuel
  induction fuel with
  | zero => intro s _ _; simp [loopGo]
  | succ n ih =>
    intro s hinv hexit
    rcases hab : env.aborted s.checkIdx with _ | _
    · rcases hc : consume env.aborted (s.checkIdx + 1) (env.stream s.loopCount).chunks []
        with ⟨gen, k1, exh⟩
      rcases hth : (if exh then (env.stream s.loopCount).thrown else none) with _ | e
      · cases ht : iterTransition env env.prompt gen s.fallback with
        | next a p fb =>
          have hinv2 : fb ≠ [] →
              containsSubstr (s.finalText ++ gen) ("</SEARCH>".toList) = true := by
            intro hfb
            rcases iterTransition_fallback ht with h1 | h2
            · exact containsSubstr_app_right (hinv (h1 ▸ hfb))
            · exact containsSubstr_app_left h2
          have hexit2 : (loopGo env n ⟨a, p, s.finalText ++ gen, fb, s.loopCount + 1, k1⟩).exit = .bound ∨
              (loopGo env n ⟨a, p, s.finalText ++ gen, fb, s.loopCount + 1, k1⟩).exit = .abortTop ∨
              (loopGo env n ⟨a, p, s.finalText ++ gen, fb, s.loopCount + 1, k1⟩).exit = .finalized := by
            simp only [loopGo, hab, Bool.false_eq_true, if_false, hc, hth, ht] at hexit
            exact hexit
          have := ih ⟨a, p, s.finalText ++ gen, fb, s.loopCount + 1, k1⟩ hinv2 hexit2
          simp only [loopGo, hab, Bool.false_eq_true, if_false, hc, hth, ht]
          exact this
        | finalize =>
          simp only [loopGo, hab, Bool.false_eq_true, if_false, hc, hth, ht]
          rcases hfb : s.fallback with _ | ⟨x, xs⟩
          · simp
          · have hct : containsSubstr (s.finalText ++ gen) ("</SEARCH>".toList) = true :=
              containsSubstr_app_right (hinv (by rw [hfb]; simp))
            have htr : trimJS (s.finalText ++ gen) ≠ [] := trimJS_ne_nil_of_searchClose hct
            have : (trimJS (s.finalText ++ gen) == []) = false := by
              rcases hb : (trimJS (s.finalText ++ gen) == []) with _ | _
              · rfl
              · exact absurd (by simpa using hb) htr
            rw [← hfb, this]
            simp
      · exfalso
        simp only [loopGo, hab, Bool.false_eq_true, if_false, hc, hth] at hexit
        rcases hexit with h | h | h <;> simp at h
    · simp [loopGo, hab]

theorem loopGo_chain (env : Env) : ∀ (fuel : Nat) (s : LoopState),
    (∀ r0, (loopGo env fuel s).trace.head? = some r0 → r0.action = s.action) ∧
    ChainOK env (loopGo env fuel s).trace ∧
    ((loopGo env fuel s).exit = .finalized →
      ∃ r1, (loopGo env fuel s).trace.getLast? = some r1 ∧
        iterTransition env env.prompt r1.gen r1.fallback = .finalize) := by
  intro fuel
  induction fuel with
  | zero =>
    intro s
    refine ⟨fun r0 h => ?_, ?_, fun h => ?_⟩
    · simp [loopGo] at h
    · simp [loopGo, ChainOK]
    · simp [loopGo] at h
  | succ n ih =>
    intro s
    rcases hab : env.aborted s.checkIdx with _ | _
    · rcases hc : consume env.aborted (s.checkIdx + 1) (env.stream s.loopCount).chunks []
        with ⟨gen, k1, exh⟩
      rcases hth : (if exh then (env.stream s.loopCount).thrown else none) with _ | e
      · cases ht : iterTransition env env.prompt gen s.fallback with
        | next a p fb =>
          rcases ih ⟨a, p, s.finalText ++ gen, fb, s.loopCount + 1, k1⟩ with ⟨ihHead, ihChain, ihLast⟩
          simp only [loopGo, hab, Bool.false_eq_true, if_false, hc, hth, ht]
          refine ⟨fun r0 h => ?_, ?_, fun h => ?_⟩
          · simp at h
            rw [← h]
          · rcases hrt : (loopGo env n ⟨a, p, s.finalText ++ gen, fb, s.loopCount + 1, k1⟩).trace
              with _ | ⟨rec2, rest⟩
            · exact trivial
            · refine ⟨⟨iterTransition_next_detected ht, p, fb, ?_⟩, ?_⟩
              · have : rec2.action = a := ihHead rec2 (by rw [hrt]; rfl)
                rw [this]
                exact ht
              · have := ihChain
                rw [hrt] at this
                exact this
          · rcases ihLast h with ⟨r1, hl, hf⟩
            rcases hrt : (loopGo env n ⟨a, p, s.finalText ++ gen, fb, s.loopCount + 1, k1⟩).trace
              with _ | ⟨rec2, rest⟩
            · rw [hrt] at hl; simp at hl
            · refine ⟨r1, ?_, hf⟩
              rw [hrt] at hl
              rw [List.getLast?_cons_cons]
              exact hl
        | finalize =>
          simp only [loopGo, hab, Bool.false_eq_true, if_false, hc, hth, ht]
          refine ⟨fun r0 h => ?_, trivial, fun _ => ?_⟩
          · simp at h
            rw [← h]
          · exact ⟨⟨s.action, s.prompt, gen, s.fallback⟩, by simp, ht⟩
      · simp only [loopGo, hab, Bool.false_eq_true, if_false, hc, hth]
        refine ⟨fun r0 h => ?_, trivial, fun h => ?_⟩
        · simp at h
          rw [← h]
        · simp at h
    · simp only [loopGo, hab, if_true]
      refine ⟨fun r0 h => ?_, trivial, fun h => ?_⟩
      · simp at h
      · simp at h

theorem closeTag_components {g : Str} (h : hasAnyCloseTag g = false) :
    ∀ tag ∈ closeTags, containsSubstr g tag = false := by
  intro tag htag
  have := List.any_eq_false.mp h tag htag
  rcases hcc : containsSubstr g tag with _ | _
  · rfl
  · exact absurd hcc this

theorem noclose_iterTransition {env : Env} {o g f : Str}
    (h : hasAnyCloseTag g = false) :
    iterTransition env o g f = .finalize ∧ searchCaps g = [] := by
  have hcomp := closeTag_components h
  have hsearch : searchCaps g = [] :=
    matchAll_eq_nil (hcomp ("</SEARCH>".toList) (by simp [closeTags]))
  have hdeep : deepCap g = none :=
    matchFirst_eq_none (hcomp ("</DEEP>".toList) (by simp [closeTags]))
  have himg : imageCap g = none :=
    matchFirst_eq_none (hcomp ("</IMAGE>".toList) (by simp [closeTags]))
  have hproj : projectCap g = none :=
    matchFirst_eq_none (hcomp ("</PROJECT>".toList) (by simp [closeTags]))
  have hcv : canvasCap g = none := by
    rw [canvasCap]
    rw [matchFirst_eq_none (hcomp ("</CANVAS_TRIGGER>".toList) (by simp [closeTags]))]
    rw [matchFirst_eq_none (hcomp ("</CANVASTRIGGER>".toList) (by simp [closeTags]))]
    rw [matchFirst_eq_none (hcomp ("</CANVAS>".toList) (by simp [closeTags]))]
    rfl
  have hstudy : studyCap g = none :=
    matchFirst_eq_none (hcomp ("</STUDY>".toList) (by simp [closeTags]))
  have hmulti : multiSearchStep env o g = none := by
    rw [multiSearchStep, hsearch]
    simp
  refine ⟨?_, hsearch⟩
  rw [iterTransition, hmulti, hdeep, hsearch]
  simp [himg, hproj, hcv, hstudy]

/-- C1: for every environment, the dispatch loop executes at most
`MAX_LOOPS = 6` iterations — `loopCount` is incremented exactly once per
iteration (it equals the length of the iteration trace), and the run
always returns a message record. -/
theorem loop_bound_six (env : Env) :
    (runAutonomousModel env).iters ≤ MAX_LOOPS ∧ MAX_LOOPS = 6 ∧
    (runAutonomousModel env).iters = (runAutonomousModel env).trace.length := by
  have hf := runAutonomousModel_fields env
  have hi := loopGo_iters env MAX_LOOPS (initState env)
  have h0 : (initState env).loopCount = 0 := rfl
  refine ⟨?_, rfl, ?_⟩
  · rw [hf.2.2.1, hi.1, h0]
    simpa using hi.2
  · rw [hf.2.2.1, hf.2.2.2, hi.1, h0]
    simp

/-- C7: when the abort signal stays clear and iteration 0's stream
completes without error and its full text contains no recognised closing
control tag, the loop runs exactly one iteration, finalizes, and returns
exactly the accumulated streamed text. -/
theorem no_tag_single_iteration (env : Env)
    (hab : ∀ k, env.aborted k = false)
    (hth : (env.stream 0).thrown = none)
    (htag : hasAnyCloseTag (textConcat (env.stream 0).chunks) = false) :
    (runAutonomousModel env).iters = 1 ∧
    (runAutonomousModel env).exit = .finalized ∧
    (runAutonomousModel env).text = textConcat (env.stream 0).chunks ∧
    (runAutonomousModel env).trace =
      [⟨env.routingAction, env.prompt, textConcat (env.stream 0).chunks, []⟩] := by
  have hcons := consume_no_tag hab (env.stream 0).chunks 1 [] (by simpa using htag)
  rw [List.nil_append] at hcons
  have hfin : iterTransition env env.prompt (textConcat (env.stream 0).chunks) [] = .finalize :=
    (noclose_iterTransition htag).1
  have hrun : loopGo env MAX_LOOPS (initState env) =
      ⟨textConcat (env.stream 0).chunks, textConcat (env.stream 0).chunks, .finalized, 1,
        [⟨env.routingAction, env.prompt, textConcat (env.stream 0).chunks, []⟩]⟩ := by
    rw [show MAX_LOOPS = 5 + 1 from rfl]
    simp only [loopGo, initState, hab 0, Bool.false_eq_true, if_false, hcons, hth, hfin]
    simp
  simp [runAutonomousModel, hrun]

/-- C4: with the handler's retry budget of 3 (at most 4 provider calls),
the backoff delays follow `2^attempt * 2000 + 1000` for consecutive
attempts starting at 0 and are strictly increasing, every delay is paired
with its retry notice, a non-rate-limit failure on the first attempt is
rethrown immediately with no retries, and three rate-limited attempts
produce exactly the delays 3000, 5000, 9000 ms over 4 total attempts. -/
theorem retry_backoff_policy {σ : Type} (p : Nat → Except GenError σ) :
    (generateContentStreamWithRetry p 3).attempts ≤ 4 ∧
    (generateContentStreamWithRetry p 3).delays =
      (List.range (generateContentStreamWithRetry p 3).delays.length).map
        (fun i => 2 ^ i * 2000 + 1000) ∧
    (generateContentStreamWithRetry p 3).delays.Pairwise (· < ·) ∧
    (generateContentStreamWithRetry p 3).notices =
      (generateContentStreamWithRetry p 3).delays.map retryNotice ∧
    (∀ e, p 0 = .error e → isQuotaError e = false →
      generateContentStreamWithRetry p 3 = ⟨[], [], 1, .thrown e⟩) ∧
    ((∀ b, b ≤ 2 → ∃ e, p b = .error e ∧ isQuotaError e = true) →
      (generateContentStreamWithRetry p 3).delays = [3000, 5000, 9000] ∧
      (generateContentStreamWithRetry p 3).attempts = 4) := by
  obtain ⟨k, hd, hn, hatt⟩ := retryGo_shape p 3 4 0
  simp only [Nat.zero_add] at hd
  have hgen : generateContentStreamWithRetry p 3 = retryGo p 3 0 4 := rfl
  refine ⟨?_, ?_, ?_, ?_, ?_, ?_⟩
  · rw [hgen]; exact hatt
  · rw [hgen, hd]
    simp
  · rw [hgen, hd]
    refine List.Pairwise.map _ (fun a b hab => ?_) (List.pairwise_lt_range k)
    have h1 : 2 ^ a < 2 ^ b := Nat.pow_lt_pow_right (by norm_num) hab
    have h2 : 2 ^ a * 2000 < 2 ^ b * 2000 := Nat.mul_lt_mul_of_pos_right h1 (by norm_num)
    omega
  · rw [hgen]; exact hn
  · intro e hp0 hnq
    have hq : (isQuotaError e && decide (0 < 3)) = false := by simp [hnq]
    rw [hgen]
    rw [show (4 : Nat) = 3 + 1 from rfl]
    simp [retryGo, hp0, hq, hnq]
  · intro hall
    obtain ⟨e0, hp0, hq0⟩ := hall 0 (by omega)
    obtain ⟨e1, hp1, hq1⟩ := hall 1 (by omega)
    obtain ⟨e2, hp2, hq2⟩ := hall 2 (by omega)
    have hb0 : (isQuotaError e0 && decide (0 < 3)) = true := by simp [hq0]
    have hb1 : (isQuotaError e1 && decide (1 < 3)) = true := by simp [hq1]
    have hb2 : (isQuotaError e2 && decide (2 < 3)) = true := by simp [hq2]
    rw [hgen]
    rw [show (4 : Nat) = 3 + 1 from rfl]
    rcases hp3 : p 3 with e3 | s3
    · simp [retryGo, hp0, hq0, hp1, hq1, hp2, hq2, hp3]
    · simp [retryGo, hp0, hq0, hp1, hq1, hp2, hq2, hp3]

/-- C4 witness: a provider rate-limited on every attempt realises the
delays 3000, 5000, 9000 over 4 attempts. -/
theorem retry_backoff_policy_witness :
    (generateContentStreamWithRetry pQuota 3).delays = [3000, 5000, 9000] ∧
    (generateContentStreamWithRetry pQuota 3).attempts = 4 := by
  have hq : isQuotaError quotaErr = true := by decide
  exact (retry_backoff_policy pQuota).2.2.2.2.2 (fun _ _ => ⟨quotaErr, rfl, hq⟩)

/-- C10: the trailing `throw new Error("Max retries exceeded")` after the
retry loop is unreachable for every provider behaviour and budget, and
when every allowed attempt rate-limits, the surfaced error is the last
attempt's own rate-limit error, rethrown because `attempt < retries`
fails. -/
theorem max_retries_throw_unreachable {σ : Type} (p : Nat → Except GenError σ) (R : Nat) :
    (generateContentStreamWithRetry p R).outcome ≠ .maxRetriesExceeded ∧
    (∀ e : Nat → GenError,
      (∀ b, b ≤ R → p b = .error (e b) ∧ isQuotaError (e b) = true) →
      (generateContentStreamWithRetry p R).outcome = .thrown (e R)) := by
  constructor
  · exact retryGo_not_max p R (R + 1) 0 (by omega) (by omega)
  · intro e h
    exact retryGo_all_quota p R e (R + 1) 0 (by omega) (by omega) (fun b _ hb2 => h b hb2)

/-- C10 witness: with every attempt rate-limited, the run surfaces the
last rate-limit error itself. -/
theorem max_retries_throw_unreachable_witness :
    (generateContentStreamWithRetry pQuota 3).outcome = .thrown quotaErr := by
  have hq : isQuotaError quotaErr = true := by decide
  exact (max_retries_throw_unreachable pQuota 3).2 (fun _ => quotaErr) (fun _ _ => ⟨rfl, hq⟩)

/-- C7 witness: a concrete tag-free stream runs one iteration and returns
its text. -/
theorem no_tag_single_iteration_witness :
    (runAutonomousModel envC7w).iters = 1 ∧
    (runAutonomousModel envC7w).exit = .finalized ∧
    (runAutonomousModel envC7w).text = textConcat (envC7w.stream 0).chunks ∧
    (runAutonomousModel envC7w).trace =
      [⟨envC7w.routingAction, envC7w.prompt, textConcat (envC7w.stream 0).chunks, []⟩] :=
  no_tag_single_iteration envC7w (fun _ => rfl) rfl (by decide)

/-- C3 counterexample: with an `AbortError` thrown before any chunk, the
returned text is the stopped-by-user placeholder, not the (empty)
accumulated text the claim asserts. -/
theorem abort_empty_placeholder_counterexample :
    (runAutonomousModel envC3x).accum = [] ∧
    (runAutonomousModel envC3x).exit = .threw .abortError ∧
    (runAutonomousModel envC3x).text = "(Generation stopped by user)".toList ∧
    (runAutonomousModel envC3x).text ≠ (runAutonomousModel envC3x).accum := by decide

/-- C3 (amended): on every non-error exit (bound, abort observed,
finalization) the returned text is exactly the accumulated streamed text,
and when cancellation surfaces as a thrown `AbortError` the text is the
accumulated text unless nothing was accumulated, in which case it is the
stopped-by-user placeholder; a normal message record is returned in all
these cases. -/
theorem cancellation_text_eq_accumulated (env : Env) :
    ((runAutonomousModel env).exit = .bound ∨ (runAutonomousModel env).exit = .abortTop ∨
      (runAutonomousModel env).exit = .finalized →
      (runAutonomousModel env).text = (runAutonomousModel env).accum) ∧
    ((runAutonomousModel env).exit = .threw .abortError →
      (runAutonomousModel env).text =
        if (runAutonomousModel env).accum = [] then "(Generation stopped by user)".toList
        else (runAutonomousModel env).accum) := by
  have hf := runAutonomousModel_fields env
  constructor
  · intro hex
    have hnt : ∀ e, (runAutonomousModel env).exit ≠ .threw e := by
      intro e he
      rw [he] at hex
      rcases hex with h | h | h <;> simp at h
    have hex' : (loopGo env MAX_LOOPS (initState env)).exit = .bound ∨
        (loopGo env MAX_LOOPS (initState env)).exit = .abortTop ∨
        (loopGo env MAX_LOOPS (initState env)).exit = .finalized := by
      rw [← hf.1]; exact hex
    have hinv : (initState env).fallback ≠ [] →
        containsSubstr (initState env).finalText ("</SEARCH>".toList) = true := by
      intro h
      exact absurd rfl h
    have ht := loopGo_text_eq_accum env MAX_LOOPS (initState env) hinv hex'
    rw [runAutonomousModel_text_nonthrew env hnt, hf.2.1, ht]
  · intro hex
    have hex' : (loopGo env MAX_LOOPS (initState env)).exit = .threw .abortError := by
      rw [← hf.1]; exact hex
    have haccum : (runAutonomousModel env).accum = (loopGo env MAX_LOOPS (initState env)).accum :=
      hf.2.1
    rw [haccum]
    by_cases hacc : (loopGo env MAX_LOOPS (initState env)).accum = []
    · simp [runAutonomousModel, hex', hacc]
    · have hb : ((loopGo env MAX_LOOPS (initState env)).accum == ([] : Str)) = false := by
        rcases hbb : ((loopGo env MAX_LOOPS (initState env)).accum == ([] : Str)) with _ | _
        · rfl
        · exact absurd (by simpa using hbb) hacc
      simp [runAutonomousModel, hex', hacc, hb]

/-- C3 witness: on a quiet finalizing run the returned text equals the
accumulated text. -/
theorem cancellation_text_eq_accumulated_witness :
    (runAutonomousModel envC3w).text = (runAutonomousModel envC3w).accum :=
  (cancellation_text_eq_accumulated envC3w).1 (Or.inr (Or.inr (by decide)))

/-- C9 counterexample: a non-abort stream error ends the run in a fourth
way — the exception exit — which is none of the three ways the claim
enumerates (bound exhausted, cancellation, finalization). -/
theorem error_exit_counterexample :
    (runAutonomousModel envC9x).exit = .threw (.other ("boom".toList)) ∧
    (runAutonomousModel envC9x).exit ≠ .bound ∧
    (runAutonomousModel envC9x).exit ≠ .abortTop ∧
    (runAutonomousModel envC9x).exit ≠ .finalized ∧
    (runAutonomousModel envC9x).text = "An error occurred: boom".toList := by decide

/-- C9 (amended): the first iteration runs under the router's
classification, every later iteration's action is installed by the tag
transition computed on the previous iteration's text (so the action
changes only when a control tag was detected), a finalizing run's last
iteration has no matching tag transition, and every run ends in exactly
one of four ways: bound exhausted, cancellation observed, finalization, or
an exception converted by the outer handler. -/
theorem action_invariant_exits (env : Env) :
    (∀ r0, (runAutonomousModel env).trace.head? = some r0 → r0.action = env.routingAction) ∧
    ChainOK env (runAutonomousModel env).trace ∧
    ((runAutonomousModel env).exit = .finalized →
      ∃ r1, (runAutonomousModel env).trace.getLast? = some r1 ∧
        iterTransition env env.prompt r1.gen r1.fallback = .finalize) ∧
    ((runAutonomousModel env).exit = .bound ∨ (runAutonomousModel env).exit = .abortTop ∨
      (runAutonomousModel env).exit = .finalized ∨
      ∃ e, (runAutonomousModel env).exit = .threw e) := by
  have hf := runAutonomousModel_fields env
  rcases loopGo_chain env MAX_LOOPS (initState env) with ⟨hHead, hChain, hLast⟩
  refine ⟨?_, ?_, ?_, ?_⟩
  · intro r0 h
    rw [hf.2.2.2] at h
    exact hHead r0 h
  · rw [hf.2.2.2]
    exact hChain
  · intro h
    rw [hf.1] at h
    rw [hf.2.2.2]
    exact hLast h
  · rcases hx : (runAutonomousModel env).exit with _ | _ | _ | e
    · exact Or.inl rfl
    · exact Or.inr (Or.inl rfl)
    · exact Or.inr (Or.inr (Or.inl rfl))
    · exact Or.inr (Or.inr (Or.inr ⟨e, rfl⟩))

/-- C9 witness: a quiet one-iteration run has a well-chained trace and a
final iteration with no tag transition. -/
theorem action_invariant_exits_witness :
    ChainOK envC9w (runAutonomousModel envC9w).trace ∧
    (∃ r1, (runAutonomousModel envC9w).trace.getLast? = some r1 ∧
      iterTransition envC9w envC9w.prompt r1.gen r1.fallback = .finalize) :=
  ⟨(action_invariant_exits envC9w).2.1, (action_invariant_exits envC9w).2.2.1 (by decide)⟩

/-- C2 (amended): the post-stream tag handling equals the declarative
first-matching-rule-wins precedence multi-search, DEEP, single-SEARCH,
IMAGE, PROJECT, CANVAS family, STUDY — with the single-SEARCH rule firing
only when no multi-search synthesis (this or any earlier iteration) has
set the fallback context; no matching rule falls through to
finalization. -/
theorem tag_precedence_first_match (env : Env) (o g f : Str) :
    iterTransition env o g f = specTagStepAmended env o g f := by
  rcases hm : multiSearchStep env o g with _ | s0 <;>
  rcases hd : deepCap g with _ | c1 <;>
  rcases hs : ((searchCaps g).length == 1 && f.isEmpty) with _ | _ <;>
  rcases hi : imageCap g with _ | c2 <;>
  rcases hpj : projectCap g with _ | c3 <;>
  rcases hcv : canvasCap g with _ | c4 <;>
  rcases hst : studyCap g with _ | c5 <;>
  simp [iterTransition, specTagStepAmended, ruleMulti, ruleDeep, ruleSingleSearch,
    ruleImage, ruleProject, ruleCanvas, ruleStudy, List.findSome?, hm, hd, hs, hi,
    hpj, hcv, hst]

/-- C2 counterexample: in a real two-iteration run, iteration 1's
multi-search sets the fallback context; iteration 2 generates exactly one
`<SEARCH>` tag (and no other tag) that this iteration's multi-search path
did not consume, yet the handling finalizes, while the claimed precedence
(rule (c) unconditional on prior fallback) would transition to SEARCH. -/
theorem single_search_guard_counterexample :
    (runAutonomousModel envC2x).exit = .finalized ∧
    (runAutonomousModel envC2x).trace.length = 2 ∧
    ((runAutonomousModel envC2x).trace.getLast?.map fun r =>
      ((searchCaps r.gen).length, deepCap r.gen,
       iterTransition envC2x envC2x.prompt r.gen r.fallback,
       stepAction (specTagStepClaimed envC2x envC2x.prompt r.gen r.fallback),
       r.fallback.isEmpty))
      = some (1, none, .finalize, some .SEARCH, false) := by decide

theorem query_infix_synthesisPrompt {q : Str} {qs : List Str} (o ctx : Str)
    (h : q ∈ qs) : q <:+: synthesisPrompt o qs ctx := by
  have hmem : ("- ".toList ++ q) ∈ qs.map (fun x => "- ".toList ++ x) :=
    List.mem_map_of_mem _ h
  have h1 : q <:+: joinSep ("\n".toList) (qs.map fun x => "- ".toList ++ x) :=
    (List.suffix_append _ q).isInfix.trans (joinSep_elem hmem)
  rw [synthesisPrompt]
  exact infix_app_right (infix_app_right (infix_app_right (infix_app_left h1)))

theorem ctx_infix_synthesisPrompt (o : Str) (qs : List Str) (ctx : Str) :
    ctx <:+: synthesisPrompt o qs ctx := by
  rw [synthesisPrompt]
  exact infix_app_right (infix_app_left (List.infix_refl ctx))

/-- C6: when one iteration captures exactly two `<SEARCH>` queries, the
external pipeline applies, and both queries return non-empty pages, the
loop re-enters with the default SIMPLE action and a synthesis prompt whose
fallback context aggregates both queries' results and whose text contains
both (trimmed) query strings and the content of every returned page. -/
theorem dual_search_synthesis (env : Env) (o g fb c1 c2 : Str) (p1 p2 : List Page)
    (hm : searchCaps g = [c1, c2])
    (hs : env.shouldSearch (trimJS c1) = true)
    (h1 : env.search (trimJS c1) = some p1) (h1n : p1 ≠ [])
    (h2 : env.search (trimJS c2) = some p2) (h2n : p2 ≠ []) :
    ∃ synth,
      iterTransition env o g fb =
        .next .SIMPLE synth (aggregateContext [(trimJS c1, p1), (trimJS c2, p2)]) ∧
      trimJS c1 <:+: synth ∧ trimJS c2 <:+: synth ∧
      ∀ pg ∈ p1 ++ p2, pg.content <:+: synth := by
  have hp1 : p1.isEmpty = false := by
    rcases p1 with _ | ⟨x, xs⟩
    · exact absurd rfl h1n
    · rfl
  have hp2 : p2.isEmpty = false := by
    rcases p2 with _ | ⟨x, xs⟩
    · exact absurd rfl h2n
    · rfl
  have hr1 : resultPages env (trimJS c1) = p1 := by simp [resultPages, h1]
  have hr2 : resultPages env (trimJS c2) = p2 := by simp [resultPages, h2]
  have hmulti : multiSearchStep env o g =
      some (.next .SIMPLE
        (synthesisPrompt o [trimJS c1, trimJS c2]
          (aggregateContext [(trimJS c1, p1), (trimJS c2, p2)]))
        (aggregateContext [(trimJS c1, p1), (trimJS c2, p2)])) := by
    rw [multiSearchStep, hm]
    simp [hs, hr1, hr2, hp1, hp2]
  refine ⟨synthesisPrompt o [trimJS c1, trimJS c2]
      (aggregateContext [(trimJS c1, p1), (trimJS c2, p2)]), ?_, ?_, ?_, ?_⟩
  · rw [iterTransition, hmulti]
  · exact query_infix_synthesisPrompt _ _ (by simp)
  · exact query_infix_synthesisPrompt _ _ (by simp)
  · intro pg hpg
    have hctx : pg.content <:+: aggregateContext [(trimJS c1, p1), (trimJS c2, p2)] := by
      rcases List.mem_append.mp hpg with hin | hin
      · have hc : pg.content <:+: aggEntry (trimJS c1) p1 := content_infix_aggEntry hin
        have hagg : aggEntry (trimJS c1) p1 <:+:
            aggregateContext [(trimJS c1, p1), (trimJS c2, p2)] :=
          aggEntry_infix_aggregateContext (by simp)
        exact hc.trans hagg
      · have hc : pg.content <:+: aggEntry (trimJS c2) p2 := content_infix_aggEntry hin
        have hagg : aggEntry (trimJS c2) p2 <:+:
            aggregateContext [(trimJS c1, p1), (trimJS c2, p2)] :=
          aggEntry_infix_aggregateContext (by simp)
        exact hc.trans hagg
    exact hctx.trans (ctx_infix_synthesisPrompt _ _ _)

/-- C6 witness: two concrete queries with one page each synthesize a
SIMPLE follow-up containing both queries and both page contents. -/
theorem dual_search_synthesis_witness :
    ∃ synth,
      iterTransition envC6w ("orig".toList)
          ("<SEARCH>q1</SEARCH><SEARCH>q2</SEARCH>".toList) [] =
        .next .SIMPLE synth
          (aggregateContext [(trimJS ("q1".toList), [pageA]), (trimJS ("q2".toList), [pageB])]) ∧
      trimJS ("q1".toList) <:+: synth ∧ trimJS ("q2".toList) <:+: synth ∧
      ∀ pg ∈ [pageA] ++ [pageB], pg.content <:+: synth :=
  dual_search_synthesis envC6w ("orig".toList)
    ("<SEARCH>q1</SEARCH><SEARCH>q2</SEARCH>".toList) [] ("q1".toList) ("q2".toList)
    [pageA] [pageB] (by decide) (by decide) (by decide) (by decide) (by decide) (by decide)

theorem multiSearchStep_none_of_all_failed {env : Env} {o g : Str}
    (h : ∀ q ∈ (searchCaps g).map trimJS, resultPages env q = []) :
    multiSearchStep env o g = none := by
  rw [multiSearchStep]
  rcases he : (searchCaps g).isEmpty with _ | _
  · rcases hs : env.shouldSearch (((searchCaps g).map trimJS).headD []) with _ | _
    · simp only [he, Bool.false_eq_true, if_false, hs]
    · have hv : (((searchCaps g).map trimJS).map fun q => (q, resultPages env q)).filter
          (fun r => !r.2.isEmpty) = [] := by
        rw [List.filter_eq_nil_iff]
        intro r hr
        rcases List.mem_map.mp hr with ⟨q, hq, hqr⟩
        rw [← hqr]
        simp [h q hq]
      simp only [he, Bool.false_eq_true, if_false, hs, eq_self_iff_true, if_true, hv,
        List.isEmpty_nil, Bool.not_true]
  · simp only [he, eq_self_iff_true, if_true]

/-- C5 (amended): for a detected `<SEARCH>` batch that the external
pipeline accepts, a failed query contributes an empty result set without
aborting the batch and synthesis proceeds (SIMPLE continue, aggregating
exactly the successful queries) whenever at least one query returned
pages; when every query failed, the multi-search rule applies no
transition and the remaining rules run: with two or more captures and no
other tag the loop finalizes, while a singleton failed capture is picked
up by the single-SEARCH rule (when no earlier synthesis set the fallback
context) and transitions to the SEARCH action. -/
theorem search_batch_failure_policy (env : Env) (o g fb : Str) :
    (searchCaps g ≠ [] →
      env.shouldSearch (((searchCaps g).map trimJS).headD []) = true →
      (∃ q ∈ (searchCaps g).map trimJS, resultPages env q ≠ []) →
      iterTransition env o g fb =
        .next .SIMPLE
          (synthesisPrompt o ((searchCaps g).map trimJS)
            (aggregateContext ((((searchCaps g).map trimJS).map
              fun q => (q, resultPages env q)).filter fun r => !r.2.isEmpty)))
          (aggregateContext ((((searchCaps g).map trimJS).map
            fun q => (q, resultPages env q)).filter fun r => !r.2.isEmpty))) ∧
    ((∀ q ∈ (searchCaps g).map trimJS, resultPages env q = []) →
      (2 ≤ (searchCaps g).length → otherTagFree g = true →
        iterTransition env o g fb = .finalize) ∧
      (∀ c, searchCaps g = [c] → deepCap g = none → fb = [] →
        iterTransition env o g fb = .next .SEARCH c fb)) := by
  constructor
  · intro hne hs hex
    have hemp : (searchCaps g).isEmpty = false := by
      rcases hcap : searchCaps g with _ | ⟨x, xs⟩
      · exact absurd hcap hne
      · rfl
    rcases hex with ⟨q, hq, hqne⟩
    have hmem : (q, resultPages env q) ∈
        ((searchCaps g).map trimJS).map fun x => (x, resultPages env x) :=
      List.mem_map_of_mem _ hq
    have hpe : (resultPages env q).isEmpty = false := by
      rcases hp : resultPages env q with _ | ⟨x, xs⟩
      · exact absurd hp hqne
      · rfl
    have hvm : (q, resultPages env q) ∈
        (((searchCaps g).map trimJS).map fun x => (x, resultPages env x)).filter
          (fun r => !r.2.isEmpty) :=
      List.mem_filter.mpr ⟨hmem, by simp [hpe]⟩
    have hvne : ((((searchCaps g).map trimJS).map fun x => (x, resultPages env x)).filter
        (fun r => !r.2.isEmpty)).isEmpty = false := by
      rcases hv : (((searchCaps g).map trimJS).map fun x => (x, resultPages env x)).filter
          (fun r => !r.2.isEmpty) with _ | ⟨x, xs⟩
      · rw [hv] at hvm; exact absurd hvm (by simp)
      · rw [hv]; rfl
    have hmulti : multiSearchStep env o g =
        some (.next .SIMPLE
          (synthesisPrompt o ((searchCaps g).map trimJS)
            (aggregateContext ((((searchCaps g).map trimJS).map
              fun x => (x, resultPages env x)).filter fun r => !r.2.isEmpty)))
          (aggregateContext ((((searchCaps g).map trimJS).map
            fun x => (x, resultPages env x)).filter fun r => !r.2.isEmpty))) := by
      rw [multiSearchStep]
      simp only [hemp, Bool.false_eq_true, if_false, hs, eq_self_iff_true, if_true, hvne,
        Bool.not_false]
    rw [iterTransition, hmulti]
  · intro hall
    have hmulti := multiSearchStep_none_of_all_failed (o := o) hall
    constructor
    · intro hlen hfree
      have hd : deepCap g = none := by
        rcases Bool.and_eq_true _ _ |>.mp hfree with ⟨h4, h5⟩
        rcases Bool.and_eq_true _ _ |>.mp h4 with ⟨h6, h7⟩
        rcases Bool.and_eq_true _ _ |>.mp h6 with ⟨h8, h9⟩
        rcases Bool.and_eq_true _ _ |>.mp h8 with ⟨h10, h11⟩
        exact Option.isNone_iff_eq_none.mp h10
      have hi : imageCap g = none := by
        rcases Bool.and_eq_true _ _ |>.mp hfree with ⟨h4, h5⟩
        rcases Bool.and_eq_true _ _ |>.mp h4 with ⟨h6, h7⟩
        rcases Bool.and_eq_true _ _ |>.mp h6 with ⟨h8, h9⟩
        rcases Bool.and_eq_true _ _ |>.mp h8 with ⟨h10, h11⟩
        exact Option.isNone_iff_eq_none.mp h11
      have hpj : projectCap g = none := by
        rcases Bool.and_eq_true _ _ |>.mp hfree with ⟨h4, h5⟩
        rcases Bool.and_eq_true _ _ |>.mp h4 with ⟨h6, h7⟩
        rcases Bool.and_eq_true _ _ |>.mp h6 with ⟨h8, h9⟩
        exact Option.isNone_iff_eq_none.mp h9
      have hcv : canvasCap g = none := by
        rcases Bool.and_eq_true _ _ |>.mp hfree with ⟨h4, h5⟩
        rcases Bool.and_eq_true _ _ |>.mp h4 with ⟨h6, h7⟩
        exact Option.isNone_iff_eq_none.mp h7
      have hst : studyCap g = none := by
        rcases Bool.and_eq_true _ _ |>.mp hfree with ⟨h4, h5⟩
        exact Option.isNone_iff_eq_none.mp h5
      have hlone : ((searchCaps g).length == 1) = false := by
        rw [beq_eq_false_iff_ne]
        omega
      rw [iterTransition, hmulti, hd]
      simp [hlone, hi, hpj, hcv, hst]
    · intro c hc hd hfb
      have hlone : ((searchCaps g).length == 1 && fb.isEmpty) = true := by
        rw [hc, hfb]
        rfl
      rw [iterTransition, hmulti, hd]
      simp only [hlone, eq_self_iff_true, if_true]
      rw [hc]
      rfl

/-- C5 witness: a lone failed query transitions to the SEARCH action. -/
theorem search_batch_failure_policy_witness :
    iterTransition envC5w ("p".toList) ("<SEARCH>q</SEARCH>".toList) [] =
      .next .SEARCH ("q".toList) [] := by
  have h := (search_batch_failure_policy envC5w ("p".toList)
    ("<SEARCH>q</SEARCH>".toList) []).2
  exact (h (by decide)).2 ("q".toList) (by decide) (by decide) rfl

/-- C5 counterexample: a batch of one query that fails is not treated as
unmatched toward finalization — the run re-enters the loop under the
SEARCH action. -/
theorem single_failed_batch_counterexample :
    (runAutonomousModel envC5x).trace.map (fun r => r.action) = [.SIMPLE, .SEARCH] ∧
    (runAutonomousModel envC5x).exit = .finalized ∧
    ((runAutonomousModel envC5x).trace.head?.map fun r => (searchCaps r.gen).map trimJS)
      = some [("q".toList)] ∧
    resultPages envC5x ("q".toList) = [] := by decide

/-- C8: whenever the effective model at the credential check is not a
native Google model and no OpenRouter key is present, the model is
replaced by the default `gemini-2.5-flash` and exactly one fallback notice
is emitted. -/
theorem openrouter_fallback (m : Str) (ork : Bool)
    (h1 : isGoogleModel m = false) (h2 : ork = false) :
    applyProviderFallback m ork = (defaultModel, [orFallbackNotice]) ∧
    (applyProviderFallback m ork).2.length = 1 := by
  subst h2
  simp [applyProviderFallback, h1]

/-- C8 witness: a non-Google model without an OpenRouter key falls back to
the default with one notice. -/
theorem openrouter_fallback_witness :
    applyProviderFallback ("llama-3".toList) false = (defaultModel, [orFallbackNotice]) ∧
    (applyProviderFallback ("llama-3".toList) false).2.length = 1 :=
  openrouter_fallback ("llama-3".toList) false (by decide) rfl
